import Mathlib

/-!
Verification development for the TikTok profile scraper
(`src/utils.py`, `src/scraper.py`, `src/csv_exporter.py`).

Python strings are modelled as `List Char` (restricted to the ASCII
behaviour of `str.upper`, `str.strip`, `float()` and `int()`, which covers
every input the claims and the scraped data involve).  Python `float`s are
modelled exactly as IEEE-754 binary64 values: a finite double is carried as
the exact rational it denotes and every operation rounds with
round-to-nearest, ties-to-even, exactly as CPython does.  Fallible Python
code is modelled with `Except PyErr`.
-/

set_option maxRecDepth 20000
set_option exponentiation.threshold 4000

namespace Scraper

/-! ### Python string primitives -/

/-- Model of `str.upper` on a single ASCII character (as used on the count
strings; the inputs of interest are ASCII). -/
def pyUpperChar (c : Char) : Char :=
  match c with
  | 'a' => 'A' | 'b' => 'B' | 'c' => 'C' | 'd' => 'D' | 'e' => 'E' | 'f' => 'F'
  | 'g' => 'G' | 'h' => 'H' | 'i' => 'I' | 'j' => 'J' | 'k' => 'K' | 'l' => 'L'
  | 'm' => 'M' | 'n' => 'N' | 'o' => 'O' | 'p' => 'P' | 'q' => 'Q' | 'r' => 'R'
  | 's' => 'S' | 't' => 'T' | 'u' => 'U' | 'v' => 'V' | 'w' => 'W' | 'x' => 'X'
  | 'y' => 'Y' | 'z' => 'Z'
  | other => other

/-- Model of `text.upper()`. -/
def pyUpperStr (s : List Char) : List Char := s.map pyUpperChar

/-- Model of `text.replace(old, new)` for a single-character `old`
(the sources only ever call `replace` with one-character patterns:
`","`, `" "`, `"K"`, `"M"`, `"B"`, `"@"`). -/
def pyReplace1 (old : Char) (new : List Char) : List Char → List Char
  | [] => []
  | c :: rest =>
    if c = old then new ++ pyReplace1 old new rest
    else c :: pyReplace1 old new rest

/-- Model of the Python substring test `needle in s`. -/
def pyContains (needle : List Char) : List Char → Bool
  | [] => needle.isEmpty
  | c :: rest => needle.isPrefixOf (c :: rest) || pyContains needle rest

/-- Auxiliary recursion for `str.split(sep)` with non-empty separator
`c0 :: sep`, matching Python's left-to-right, non-overlapping scan.
When `skip` is positive the scanner is still consuming the remaining
characters of a separator occurrence it has already matched (this keeps
the recursion structural, one character at a time). -/
def pySplitGo (c0 : Char) (sep : List Char) : List Char → ℕ → List (List Char)
  | [], _ => [[]]
  | _ :: rest, skip + 1 => pySplitGo c0 sep rest skip
  | c :: rest, 0 =>
    if (c0 :: sep).isPrefixOf (c :: rest) then
      [] :: pySplitGo c0 sep rest sep.length
    else
      match pySplitGo c0 sep rest 0 with
      | [] => [[c]]
      | x :: xs => (c :: x) :: xs

/-- Model of `s.split(sep)` for a non-empty separator (Python raises on an
empty separator; the sources always pass a non-empty one). -/
def pySplitOn (sep : List Char) (s : List Char) : List (List Char) :=
  match sep with
  | [] => [s]
  | c0 :: cs => pySplitGo c0 cs s 0

/-! ### IEEE-754 binary64 model (CPython `float`) -/

/-- Python exception classes relevant to the modelled code. -/
inductive PyErr
  | valueError
  | typeError
  | overflowError
deriving DecidableEq, Repr

/-- A CPython `float`: a finite binary64 value, an infinity, or a NaN.
A finite value is carried exactly as `m * 2 ^ k` with integer significand
`m` and integer exponent `k` (every finite double has this form). -/
inductive PyFloat
  | finite (m : ℤ) (k : ℤ)
  | inf
  | neginf
  | nan
deriving DecidableEq, Repr

/-- Round the non-negative fraction `n / d` (with `d ≠ 0`) to a natural
number, half to even — the IEEE-754 default rounding used by CPython for
decimal-string conversion and arithmetic. -/
def rheFrac (n d : ℕ) : ℕ :=
  let f := n / d
  let r := n % d
  if 2 * r < d then f
  else if d < 2 * r then f + 1
  else if f % 2 = 0 then f else f + 1

/-- Fuel-driven floor of `log2` on naturals (the fuel bounds the number of
halvings; `natLog2 n` supplies `n` itself, enough for any `n ≥ 1`). -/
def natLog2F : ℕ → ℕ → ℕ
  | 0, _ => 0
  | f + 1, n => if n ≤ 1 then 0 else 1 + natLog2F f (n / 2)

/-- Floor of `log2 n` for `n ≥ 1`. -/
def natLog2 (n : ℕ) : ℕ := natLog2F n n

/-- Floor of `log2 (a / b)` for naturals `a, b ≥ 1`, computed from the
floor logs of numerator and denominator:  the answer is
`log2 a - log2 b` or one less, decided by comparing `a / b` against
`2 ^ (log2 a - log2 b)` with cross-multiplication. -/
def fracFloorLog2 (a b : ℕ) : ℤ :=
  let e : ℤ := (natLog2 a : ℤ) - (natLog2 b : ℤ)
  if 0 ≤ e then (if 2 ^ e.toNat * b ≤ a then e else e - 1)
  else (if b ≤ a * 2 ^ (-e).toNat then e else e - 1)

/-- Round the exact rational `num / den` (with `den ≠ 0`) to the nearest
binary64 (ties to even), with gradual underflow below `2 ^ (-1022)`
(the significand granularity never drops below `2 ^ (-1074)`) and
overflow to infinity at `2 ^ 1024`. -/
def roundF64 (num : ℤ) (den : ℕ) : PyFloat :=
  if num = 0 then .finite 0 0
  else
    let a := num.natAbs
    let k : ℤ := max (fracFloorLog2 a den - 52) (-1074)
    let m : ℕ :=
      if 0 ≤ k then rheFrac a (den * 2 ^ k.toNat)
      else rheFrac (a * 2 ^ (-k).toNat) den
    let ovf : Bool :=
      if 0 ≤ k then decide (2 ^ 1024 ≤ m * 2 ^ k.toNat)
      else decide (2 ^ (1024 + (-k).toNat) ≤ m)
    if ovf then (if num < 0 then .neginf else .inf)
    else .finite (if num < 0 then -(m : ℤ) else (m : ℤ)) k

/-- Sign invariant used in the non-negativity analysis: the `float` is not
`-inf` and a finite value has a non-negative significand. -/
def PyFloat.NonNegative : PyFloat → Prop
  | .finite m _ => 0 ≤ m
  | .neginf => False
  | .inf => True
  | .nan => True

/-- Multiplication of a `float` by a positive integer constant.  The call
sites use 1000, 1000000 and 1000000000, all exactly representable in
binary64, so the product rounds once, exactly as CPython computes it. -/
def pyMulNat (x : PyFloat) (mult : ℕ) : PyFloat :=
  match x with
  | .finite m k =>
    if 0 ≤ k then roundF64 (m * mult * 2 ^ k.toNat) 1
    else roundF64 (m * mult) (2 ^ (-k).toNat)
  | .inf => .inf
  | .neginf => .neginf
  | .nan => .nan

/-- Model of `int(x)` on a `float`: truncation toward zero; CPython raises
`OverflowError` on an infinity and `ValueError` on a NaN. -/
def pyIntOfFloat (x : PyFloat) : Except PyErr ℤ :=
  match x with
  | .finite m k =>
    .ok (if 0 ≤ k then m * 2 ^ k.toNat
         else
           let t : ℕ := m.natAbs / 2 ^ (-k).toNat
           if m < 0 then -(t : ℤ) else (t : ℤ))
  | .nan => .error .valueError
  | .inf => .error .overflowError
  | .neginf => .error .overflowError

/-! ### CPython numeric-string parsing (`float(text)`, `int(text)`) -/

/-- ASCII whitespace ignored around numeric literals by `float()`/`int()`. -/
def isPyWS (c : Char) : Bool :=
  c = ' ' || c = '\t' || c = '\n' || c = '\r' || c = '\x0b' || c = '\x0c'

/-- Strip leading and trailing whitespace. -/
def stripWS (s : List Char) : List Char :=
  ((s.dropWhile isPyWS).reverse.dropWhile isPyWS).reverse

/-- Numeric value of an ASCII digit. -/
def digitVal (c : Char) : ℕ := c.toNat - 48

/-- Consume a maximal digit run in which an underscore may only sit
between two digits (PEP 515, as enforced by CPython's `float()` and
`int()`).  Returns the accumulated value, the number of digits consumed,
and the unconsumed rest.  Only called when the first character is a
digit. -/
def parseUDigitsGo : List Char → ℕ → ℕ → ℕ × ℕ × List Char
  | [], acc, n => (acc, n, [])
  | '_' :: d :: rest2, acc, n =>
    if d.isDigit then parseUDigitsGo rest2 (10 * acc + digitVal d) (n + 1)
    else (acc, n, '_' :: d :: rest2)
  | ['_'], acc, n => (acc, n, ['_'])
  | c :: rest, acc, n =>
    if c.isDigit then parseUDigitsGo rest (10 * acc + digitVal c) (n + 1)
    else (acc, n, c :: rest)

/-- Parse an optional sign; returns `true` for a consumed minus sign. -/
def parseSign : List Char → Bool × List Char
  | '+' :: rest => (false, rest)
  | '-' :: rest => (true, rest)
  | s => (false, s)

/-- Parse an unsigned decimal literal of `float()`'s grammar
(`digits [. digits] | . digits`, optional `E`-exponent, underscores
between digits) into its exact value `mant * 10 ^ e10`, returned as the
pair `(mant, e10)`.  The whole input must be consumed. -/
def parseDecimal (s : List Char) : Option (ℕ × ℤ) :=
  let t1 :=
    match s with
    | c :: _ => if c.isDigit then parseUDigitsGo s 0 0 else (0, 0, s)
    | [] => (0, 0, s)
  let ip := t1.1
  let ni := t1.2.1
  let r1 := t1.2.2
  let dotr :=
    match r1 with
    | '.' :: r => (true, r)
    | _ => (false, r1)
  let r2 := dotr.2
  let t2 :=
    if dotr.1 then
      match r2 with
      | c :: _ => if c.isDigit then parseUDigitsGo r2 0 0 else (0, 0, r2)
      | [] => (0, 0, r2)
    else (0, 0, r2)
  let fp := t2.1
  let nf := t2.2.1
  let r3 := t2.2.2
  if ni + nf = 0 then none
  else
    let mant : ℕ := ip * 10 ^ nf + fp
    match r3 with
    | [] => some (mant, -(nf : ℤ))
    | 'E' :: r4 =>
      let sr := parseSign r4
      let t3 :=
        match sr.2 with
        | c :: _ => if c.isDigit then parseUDigitsGo sr.2 0 0 else (0, 0, sr.2)
        | [] => (0, 0, sr.2)
      if t3.2.1 = 0 ∨ t3.2.2 ≠ [] then none
      else
        let e : ℤ := if sr.1 then -(t3.1 : ℤ) else (t3.1 : ℤ)
        some (mant, e - (nf : ℤ))
    | _ => none

/-- Model of CPython `float(s)` on an ASCII string: strip whitespace,
case-insensitively accept `inf`/`infinity`/`nan` after an optional sign,
otherwise parse a decimal literal and round it to binary64.  Raises
`ValueError` on anything else. -/
def pyFloatOfString (s : List Char) : Except PyErr PyFloat :=
  let t := pyUpperStr (stripWS s)
  let sr := parseSign t
  let u := sr.2
  if u = "INF".toList ∨ u = "INFINITY".toList then
    .ok (if sr.1 then .neginf else .inf)
  else if u = "NAN".toList then .ok .nan
  else
    match parseDecimal u with
    | some me =>
      let sm : ℤ := if sr.1 then -(me.1 : ℤ) else (me.1 : ℤ)
      .ok (if 0 ≤ me.2 then roundF64 (sm * 10 ^ me.2.toNat) 1
           else roundF64 sm (10 ^ (-me.2).toNat))
    | none => .error .valueError

/-- Model of CPython `int(s)` on an ASCII string (base 10): strip
whitespace, optional sign, digits with underscores between digits. -/
def pyIntOfString (s : List Char) : Except PyErr ℤ :=
  let t := stripWS s
  let sr := parseSign t
  match sr.2 with
  | c :: _ =>
    if c.isDigit then
      let t1 := parseUDigitsGo sr.2 0 0
      if t1.2.2 = [] then .ok (if sr.1 then -(t1.1 : ℤ) else (t1.1 : ℤ))
      else .error .valueError
    else .error .valueError
  | [] => .error .valueError

/-! ### `format_number` (src/utils.py lines 162-179) -/

/-- The `except (ValueError, TypeError): return 0` handler of
`format_number`; any other exception (notably `OverflowError`)
propagates. -/
def catchVT (r : Except PyErr ℤ) : Except PyErr ℤ :=
  match r with
  | .error .valueError => .ok 0
  | .error .typeError => .ok 0
  | r => r

/-- One suffix branch of `format_number`:
`int(float(text.replace(suf, "")) * mult)`. -/
def fnBranch (t : List Char) (suf : Char) (mult : ℕ) : Except PyErr ℤ := do
  let x ← pyFloatOfString (pyReplace1 suf [] t)
  pyIntOfFloat (pyMulNat x mult)

/-- Model of `format_number`: empty string maps to 0; otherwise uppercase,
drop commas and spaces, dispatch on a `K`/`M`/`B` suffix character, and
catch `ValueError`/`TypeError` as 0. -/
def format_number (text : List Char) : Except PyErr ℤ :=
  if text = [] then .ok 0
  else
    let t := pyReplace1 ' ' [] (pyReplace1 ',' [] (pyUpperStr text))
    catchVT
      (if pyContains ['K'] t then fnBranch t 'K' 1000
       else if pyContains ['M'] t then fnBranch t 'M' 1000000
       else if pyContains ['B'] t then fnBranch t 'B' 1000000000
       else pyIntOfString t)

/-! ### `clean_text` (src/utils.py lines 148-159) -/

/-- Split on whitespace runs, dropping empty pieces — Python `text.split()`.
The accumulator holds the current word reversed. -/
def pySplitWSGo : List Char → List Char → List (List Char)
  | [], acc => if acc = [] then [] else [acc.reverse]
  | c :: rest, acc =>
    if isPyWS c then
      (if acc = [] then pySplitWSGo rest []
       else acc.reverse :: pySplitWSGo rest [])
    else pySplitWSGo rest (c :: acc)

/-- Model of `clean_text`: empty for falsy input, else
`" ".join(text.split())` followed by `.strip()`. -/
def clean_text (text : List Char) : List Char :=
  if text = [] then []
  else stripWS (List.intercalate [' '] (pySplitWSGo text []))

/-! ### `extract_video_id` (src/utils.py lines 182-199) and
`CSVExporter._extract_video_id` (src/csv_exporter.py lines 75-94) -/

/-- The item-path marker `"/video/"`. -/
def videoMarker : List Char := "/video/".toList

/-- Python `part.isdigit() and len(part) > 10` on a path segment. -/
def isLongDigitRun (part : List Char) : Bool :=
  !part.isEmpty && part.all (fun c => c.isDigit) && decide (10 < part.length)

/-- Model of `utils.extract_video_id`: `None` for falsy input; if
`"/video/"` occurs, `url.split("/video/")[1].split("?")[0]`; otherwise,
when `"tiktok.com" in url and "/" in url`, the first all-digit path
segment longer than 10 characters; else `None`. -/
def extract_video_id (url : List Char) : Option (List Char) :=
  if url = [] then none
  else if pyContains videoMarker url then
    some ((pySplitOn ['?'] ((pySplitOn videoMarker url).getD 1 [])).getD 0 [])
  else if pyContains "tiktok.com".toList url ∧ pyContains ['/'] url then
    (pySplitOn ['/'] url).find? isLongDigitRun
  else none

/-- Model of `CSVExporter._extract_video_id` (same algorithm but returns
`""` in place of `None` and its fallback branch does not require `"/"`). -/
def extract_video_id_csv (url : List Char) : List Char :=
  if url = [] then []
  else if pyContains videoMarker url then
    (pySplitOn ['?'] ((pySplitOn videoMarker url).getD 1 [])).getD 0 []
  else if pyContains "tiktok.com".toList url then
    match (pySplitOn ['/'] url).find? isLongDigitRun with
    | some p => p
    | none => []
  else []

/-! ### `CSVExporter._process_video_data` / `add_video_data`
(src/csv_exporter.py lines 39-73) -/

/-- The raw per-video dictionary assembled by the scraper (string fields;
`scraped_at` and `account_username`, which come from the wall clock and
the configuration, are omitted as environment data).  `video_id` is the
preliminary id `video_url.split('/')[-1]` of scraper.py line 188; it is
recomputed from the URL by `_process_video_data` and never read. -/
structure RawVideoData where
  video_id : List Char
  video_url : List Char
  description : List Char
  thumbnail_url : List Char
  views_count : List Char
  likes_count : List Char
  comments_count : List Char
deriving DecidableEq, Repr

/-- A processed record as committed by `_process_video_data`. -/
structure ProcessedVideoData where
  video_id : List Char
  video_url : List Char
  description : List Char
  thumbnail_url : List Char
  views_count : ℤ
  likes_count : ℤ
  comments_count : ℤ
deriving DecidableEq, Repr

/-- Model of `_process_video_data`: derives the id from the URL, cleans
the description and parses the three count strings with `format_number`.
An exception from `format_number` propagates to the caller. -/
def process_video_data (raw : RawVideoData) : Except PyErr ProcessedVideoData := do
  let v ← format_number raw.views_count
  let l ← format_number raw.likes_count
  let c ← format_number raw.comments_count
  .ok ⟨extract_video_id_csv raw.video_url, raw.video_url,
       clean_text raw.description, raw.thumbnail_url, v, l, c⟩

/-- Model of `add_video_data`: rejects a record without a `video_url`,
processes it, and appends it to the collection; the surrounding
`except Exception` turns any processing error into `False` (no append). -/
def add_video_data (data : List ProcessedVideoData) (raw : RawVideoData) :
    List ProcessedVideoData × Bool :=
  if raw.video_url = [] then (data, false)
  else
    match process_video_data raw with
    | .ok rec => (data ++ [rec], true)
    | .error _ => (data, false)

/-! ### `get_tiktok_profile_url` (src/utils.py lines 202-205) -/

/-- Model of `get_tiktok_profile_url`: strips every `"@"` via
`username.replace("@", "")` and prepends `"https://www.tiktok.com/@"`. -/
def get_tiktok_profile_url (username : List Char) : List Char :=
  "https://www.tiktok.com/@".toList ++ pyReplace1 '@' [] username

/-! ### `scroll_and_load_videos` (src/scraper.py lines 109-148)

The loop is driven by the page's visible-item count, an external
observation; `ms n` denotes the length of the list returned by the `n`-th
call to `get_visible_video_elements()` inside the loop (two calls per
iteration: `initial_count` then `final_count`). -/

/-- State of the `while` loop of `scroll_and_load_videos`: the
`videos_loaded` and `no_new_videos_count` locals and the index of the next
measurement to consume. -/
structure ScrollState where
  videos_loaded : ℕ
  no_new_videos_count : ℕ
  idx : ℕ
deriving DecidableEq, Repr

/-- Locals at loop entry. -/
def scrollInit : ScrollState := ⟨0, 0, 0⟩

/-- The loop guard
`videos_loaded < config.max_videos and no_new_videos_count < max_no_new_videos`
(with `max_no_new_videos = 3`). -/
def scrollContinues (maxVideos : ℕ) (s : ScrollState) : Bool :=
  decide (s.videos_loaded < maxVideos) && decide (s.no_new_videos_count < 3)

/-- One iteration of the loop body: measure `initial_count`, scroll and
settle, re-measure `final_count`; on growth set `videos_loaded` to the new
count and reset the stall counter, otherwise increment the stall
counter. -/
def scrollStep (ms : ℕ → ℕ) (s : ScrollState) : ScrollState :=
  let initial := ms s.idx
  let final := ms (s.idx + 1)
  if initial < final then ⟨final, 0, s.idx + 2⟩
  else ⟨s.videos_loaded, s.no_new_videos_count + 1, s.idx + 2⟩

/-- The loop state after `n` iterations; once the guard fails the state
freezes (the loop has exited). -/
def scrollRun (maxVideos : ℕ) (ms : ℕ → ℕ) : ℕ → ScrollState
  | 0 => scrollInit
  | n + 1 =>
    let s := scrollRun maxVideos ms n
    if scrollContinues maxVideos s then scrollStep ms s else s

/-- The loop exits exactly after `n` iterations: the guard held before
each of the first `n` iterations and fails at the state they produce. -/
def scrollExitsAt (maxVideos : ℕ) (ms : ℕ → ℕ) (n : ℕ) : Prop :=
  (∀ k, k < n → scrollContinues maxVideos (scrollRun maxVideos ms k) = true) ∧
  scrollContinues maxVideos (scrollRun maxVideos ms n) = false

/-- The value `scroll_and_load_videos` returns when its loop exits after
`n` iterations: the `videos_loaded` local. -/
def scroll_and_load_videos (maxVideos : ℕ) (ms : ℕ → ℕ) (n : ℕ) : ℕ :=
  (scrollRun maxVideos ms n).videos_loaded

/-- The measured count of the most recent growth scan among the first `n`
iterations, or 0 if no scan observed growth (used to characterise
`videos_loaded`). -/
def lastGrowthValue (ms : ℕ → ℕ) : ℕ → ℕ
  | 0 => 0
  | n + 1 => if ms (2 * n) < ms (2 * n + 1) then ms (2 * n + 1)
             else lastGrowthValue ms n

/-- The number of consecutive no-growth scans immediately before
iteration `n` (used to characterise `no_new_videos_count`). -/
def stallLen (ms : ℕ → ℕ) : ℕ → ℕ
  | 0 => 0
  | n + 1 => if ms (2 * n) < ms (2 * n + 1) then 0 else stallLen ms n + 1

/-! ### `RetryHandler.execute_with_retry` (src/utils.py lines 115-132) -/

/-- Recursion over the remaining iterations of
`for attempt in range(self.max_retries)`.  `f i` is the outcome of the
`i`-th invocation of the wrapped coroutine.  Accumulates the list of slept
backoff delays (each `base_delay * (2 ** attempt)`, a `float` product with
an exact power of two) and the number of invocations so far.  When the
range is exhausted the recorded `last_exception` is raised (`error none`
models `raise None`, reachable only with `max_retries = 0`). -/
def ewrGo (baseDelay : PyFloat) (maxRetries : ℕ) (f : ℕ → Except ε α) :
    ℕ → ℕ → Option ε → List PyFloat → ℕ → Except (Option ε) α × List PyFloat × ℕ
  | _, 0, last, delays, cnt => (.error last, delays, cnt)
  | attempt, r + 1, _, delays, cnt =>
    match f attempt with
    | .ok a => (.ok a, delays, cnt + 1)
    | .error e =>
      if attempt < maxRetries - 1 then
        ewrGo baseDelay maxRetries f (attempt + 1) r (some e)
          (delays ++ [pyMulNat baseDelay (2 ^ attempt)]) (cnt + 1)
      else
        ewrGo baseDelay maxRetries f (attempt + 1) r (some e) delays (cnt + 1)

/-- Model of `execute_with_retry`: final outcome, slept delays, and number
of invocations of the wrapped operation. -/
def execute_with_retry (baseDelay : PyFloat) (maxRetries : ℕ)
    (f : ℕ → Except ε α) : Except (Option ε) α × List PyFloat × ℕ :=
  ewrGo baseDelay maxRetries f 0 maxRetries none [] 0

/-! ### `scrape_profile` (src/scraper.py lines 474-553) -/

/-- The dictionary fields extracted by `extract_video_data` from a grid
item (`None` overall is modelled by `Option GridData` below). -/
structure GridData where
  video_url : List Char
  views_count : List Char
  thumbnail_url : List Char
deriving DecidableEq, Repr

/-- The fields extracted by `extract_data_from_individual_video` (that
method catches its own exceptions and returns defaults, so it always
yields a value). -/
structure DetailData where
  description : List Char
  likes_count : List Char
  comments_count : List Char
deriving DecidableEq, Repr

/-- Environment of one iteration of the per-item loop: the number of item
handles currently returned by `get_visible_video_elements()` (that method
catches its own errors and returns a list), the grid-extraction outcome
(`extract_video_data` catches its own errors and may return `None`), the
detail-view fields, and whether the iteration raises an exception at an
await point (caught by the per-item `except Exception`, which logs and
continues). -/
structure ItemEnv where
  elemsCount : ℕ
  raises : Bool
  grid : Option GridData
  detail : DetailData

/-- The mutable crawl state: `self.scraped_videos`, the exporter's
`self.data` collection, and the `scraped_count` local. -/
structure CrawlState where
  scraped_videos : List (List Char)
  csvData : List ProcessedVideoData
  scraped_count : ℕ
deriving DecidableEq, Repr

/-- One iteration of `for i in range(config.max_videos)` (scraper lines
498-531): break when `i` exceeds the available handles; skip on a failed
grid extraction, a falsy URL, or a URL already in `scraped_videos`;
otherwise fetch the detail fields, merge, hand the record to the exporter
and mark the URL as scraped.  Returns the new state and whether the loop
breaks. -/
def crawlItem (it : ItemEnv) (i : ℕ) (st : CrawlState) : CrawlState × Bool :=
  if it.raises then (st, false)
  else if it.elemsCount ≤ i then (st, true)
  else
    match it.grid with
    | none => (st, false)
    | some g =>
      if g.video_url = [] then (st, false)
      else if g.video_url ∈ st.scraped_videos then (st, false)
      else
        let raw : RawVideoData :=
          ⟨(pySplitOn ['/'] g.video_url).getLast?.getD [],
           g.video_url, it.detail.description, g.thumbnail_url,
           g.views_count, it.detail.likes_count, it.detail.comments_count⟩
        (⟨st.scraped_videos ++ [g.video_url],
          (add_video_data st.csvData raw).1,
          st.scraped_count + 1⟩, false)

/-- The per-item loop from index `i` with `remaining` iterations left. -/
def crawlLoop (items : ℕ → ItemEnv) : ℕ → ℕ → CrawlState → CrawlState
  | _, 0, st => st
  | i, r + 1, st =>
    let sb := crawlItem (items i) i st
    if sb.2 then sb.1 else crawlLoop items (i + 1) r sb.1

/-- The browser-lifecycle steps of `scrape_profile`, for stating where
`close_browser` happens relative to the other phases. -/
inductive ScrapeAction
  | startBrowser
  | navigate
  | scrollLoad
  | saveCsv
  | closeBrowser
deriving DecidableEq, Repr

/-- Environment of one `scrape_profile` run: whether `start_browser`
raises (it re-raises its failures), the result of `navigate_to_profile`
and of `scroll_and_load_videos` (both catch their own exceptions and
return a value), the `config.max_videos` bound, and the per-item
environments. -/
structure ScrapeEnv where
  startFails : Bool
  navOk : Bool
  scrollResult : ℕ
  maxVideos : ℕ
  items : ℕ → ItemEnv

/-- The `try` body of `scrape_profile` (before `except`/`finally`):
start the browser, navigate (early `return False` when the profile is not
found), load videos (early `return False` on a zero count), run the
per-item loop, and save (`return False` when nothing was collected).
`error ()` models an exception escaping the body. -/
def scrapeBody (env : ScrapeEnv) : Except Unit Bool × CrawlState × List ScrapeAction :=
  if env.startFails then (.error (), ⟨[], [], 0⟩, [.startBrowser])
  else if env.navOk = false then
    (.ok false, ⟨[], [], 0⟩, [.startBrowser, .navigate])
  else if env.scrollResult = 0 then
    (.ok false, ⟨[], [], 0⟩, [.startBrowser, .navigate, .scrollLoad])
  else
    let st := crawlLoop env.items 0 env.maxVideos ⟨[], [], 0⟩
    if st.csvData = [] then
      (.ok false, st, [.startBrowser, .navigate, .scrollLoad])
    else
      (.ok true, st, [.startBrowser, .navigate, .scrollLoad, .saveCsv])

/-- Model of `scrape_profile`: the `except Exception` handler turns an
escaped exception into `return False`, and the `finally` block invokes
`close_browser` on every path before the call returns. -/
def scrape_profile (env : ScrapeEnv) : Bool × CrawlState × List ScrapeAction :=
  let b := scrapeBody env
  ((match b.1 with | .ok r => r | .error _ => false),
   b.2.1, b.2.2 ++ [.closeBrowser])

/-! ## Theorems -/

theorem catchVT_error_eq (r : Except PyErr ℤ) (e : PyErr)
    (h : catchVT r = .error e) : e = .overflowError := by
  cases r with
  | ok a => simp [catchVT] at h
  | error pe => cases pe <;> simp_all [catchVT]

/-- C5 (code bug): the six specified parses of the numeric normalizer hold
and the only exception class that can escape `format_number` is
`OverflowError` — which the concrete input `"INFB"` (whose numeric part
parses as an IEEE infinity, so that `int()` raises an `OverflowError` the
`except (ValueError, TypeError)` clause does not catch) actually raises,
contradicting the never-raises clause. -/
theorem c5_format_number_cases :
    format_number "0".toList = .ok 0 ∧
    format_number "1.2K".toList = .ok 1200 ∧
    format_number "5.5M".toList = .ok 5500000 ∧
    format_number "".toList = .ok 0 ∧
    format_number "garbage".toList = .ok 0 ∧
    format_number "2B".toList = .ok 2000000000 ∧
    format_number "INFB".toList = .error .overflowError ∧
    (∀ text e, format_number text = .error e → e = .overflowError) := by
  refine ⟨rfl, rfl, rfl, rfl, rfl, rfl, rfl, fun text e h => ?_⟩
  unfold format_number at h
  split at h
  · simp at h
  · exact catchVT_error_eq _ _ h

/-- C6 counterexample: `format_number "1.999K"` evaluates to 1999 — the
binary64 product `float("1.999") * 1000` is exactly 1999.0 — so the
claimed value 1998 is wrong. -/
theorem c6_counterexample :
    format_number "1.999K".toList = .ok 1999 ∧ (1999 : ℤ) ≠ 1998 :=
  ⟨rfl, by decide⟩

/-- C6 (amended): the normalizer truncates (does not round) after the
float multiplication and can under-count near an integer boundary:
`"1.0009765625K"` has the exactly representable product 1000.9765625 and
yields 1000 (rounding would give 1001), and `"1.001K"` yields 1000 rather
than 1001; the spec's own example `"1.999K"`, however, yields 1999
because its binary64 product lands exactly on 1999.0. -/
theorem c6_truncation :
    format_number "1.0009765625K".toList = .ok 1000 ∧
    format_number "1.001K".toList = .ok 1000 ∧
    format_number "1.999K".toList = .ok 1999 :=
  ⟨rfl, rfl, rfl⟩

/-- C3: with `max_retries = 5` and `base_delay = 1.0`, an operation that
fails on every invocation is invoked exactly 5 times, the delays slept
before attempts 2-5 are the `float` values 1, 2, 4 and 8 (that is,
`base_delay * 2 ^ (k - 1)` before retry `k`), and the exception finally
raised is the one recorded on the 5th (last) attempt. -/
theorem c3_retry {ε : Type} {α : Type} (f : ℕ → Except ε α) (e : ℕ → ε)
    (hf : ∀ i, f i = .error (e i)) :
    execute_with_retry (roundF64 1 1) 5 f =
      (.error (some (e 4)),
       [roundF64 1 1, roundF64 2 1, roundF64 4 1, roundF64 8 1], 5) := by
  unfold execute_with_retry
  simp only [ewrGo, hf]
  norm_num
  exact ⟨rfl, rfl, rfl, rfl⟩

/-- Witness for C3 on a concrete always-failing operation. -/
theorem c3_retry_witness :
    execute_with_retry (roundF64 1 1) 5 (fun i => (.error i : Except ℕ Unit)) =
      (.error (some 4),
       [roundF64 1 1, roundF64 2 1, roundF64 4 1, roundF64 8 1], 5) :=
  c3_retry (fun i => .error i) (fun i => i) (fun _ => rfl)

theorem scrollRun_char (maxVideos : ℕ) (ms : ℕ → ℕ) (n : ℕ)
    (h : ∀ k, k < n → scrollContinues maxVideos (scrollRun maxVideos ms k) = true) :
    scrollRun maxVideos ms n = ⟨lastGrowthValue ms n, stallLen ms n, 2 * n⟩ := by
  induction n with
  | zero => rfl
  | succ n ih =>
    have hrec := ih (fun k hk => h k (Nat.lt_succ_of_lt hk))
    have hn := h n (Nat.lt_succ_self n)
    rw [hrec] at hn
    simp only [scrollRun, hrec, hn, if_true]
    by_cases hg : ms (2 * n) < ms (2 * n + 1) <;>
      simp [scrollStep, lastGrowthValue, stallLen, hg, Nat.mul_succ]

theorem lastGrowthValue_lt (ms : ℕ → ℕ) (maxVideos : ℕ)
    (hlt : ∀ j, ms j < maxVideos) (n : ℕ) :
    lastGrowthValue ms n < maxVideos := by
  induction n with
  | zero => exact Nat.lt_of_le_of_lt (Nat.zero_le _) (hlt 0)
  | succ n ih => unfold lastGrowthValue; split; exact hlt _; exact ih

theorem stallLen_le (ms : ℕ → ℕ) (n : ℕ) : stallLen ms n ≤ n := by
  induction n with
  | zero => exact le_refl 0
  | succ n ih => unfold stallLen; split <;> omega

theorem stallLen_imp_no_growth (ms : ℕ → ℕ) (n : ℕ) :
    ∀ j, n - stallLen ms n ≤ j → j < n → ¬ ms (2 * j) < ms (2 * j + 1) := by
  induction n with
  | zero => intro j _ h2; exact absurd h2 (Nat.not_lt_zero j)
  | succ n ih =>
    intro j h1 h2
    unfold stallLen at h1
    by_cases hg : ms (2 * n) < ms (2 * n + 1)
    · rw [if_pos hg] at h1
      omega
    · rw [if_neg hg] at h1
      rcases Nat.lt_succ_iff_lt_or_eq.mp h2 with h | rfl
      · exact ih j (by omega) h
      · exact hg

/-- C1 (amended): if the measured visible count never reaches `maxItems`,
the pagination loop exits exactly when the stall counter reaches 3 — the
final 3 scans are consecutive no-growth scans, no earlier prefix had 3, a
growth scan resets the counter to 0 — and the loop also terminates when a
growth scan raises `videos_loaded` to a value `≥ maxItems`; a visible
count `≥ maxItems` that no scan increases does not by itself end the
loop (see the counterexample). -/
theorem c1_pagination (maxVideos : ℕ) (ms : ℕ → ℕ) (n : ℕ)
    (hlt : ∀ j, ms j < maxVideos)
    (hexit : scrollExitsAt maxVideos ms n) :
    3 ≤ n ∧
    (scrollRun maxVideos ms n).no_new_videos_count = 3 ∧
    (∀ j, n - 3 ≤ j → j < n → ¬ ms (2 * j) < ms (2 * j + 1)) ∧
    (∀ j, j < n → ms (2 * j) < ms (2 * j + 1) →
      (scrollRun maxVideos ms (j + 1)).no_new_videos_count = 0) ∧
    (∀ maxV2 : ℕ, ∀ ms2 : ℕ → ℕ, ∀ j : ℕ,
      (∀ k, k ≤ j → scrollContinues maxV2 (scrollRun maxV2 ms2 k) = true) →
      ms2 (2 * j) < ms2 (2 * j + 1) → maxV2 ≤ ms2 (2 * j + 1) →
      scrollContinues maxV2 (scrollRun maxV2 ms2 (j + 1)) = false) := by
  obtain ⟨hpreh, hfail⟩ := hexit
  have hchar := scrollRun_char maxVideos ms n hpreh
  have hlgv : lastGrowthValue ms n < maxVideos := lastGrowthValue_lt ms maxVideos hlt n
  rw [hchar] at hfail
  have hsl3 : 3 ≤ stallLen ms n := by
    by_contra hc
    push_neg at hc
    simp [scrollContinues, hlgv, hc] at hfail
  have hsl_le : stallLen ms n ≤ 3 := by
    cases n with
    | zero => simp [stallLen] at hsl3
    | succ m =>
      have hm := hpreh m (Nat.lt_succ_self m)
      have hcharm := scrollRun_char maxVideos ms m
        (fun k hk => hpreh k (Nat.lt_succ_of_lt hk))
      rw [hcharm] at hm
      have hslm : stallLen ms m < 3 := by
        simp [scrollContinues] at hm
        exact hm.2
      unfold stallLen
      split <;> omega
  have hsl : stallLen ms n = 3 := le_antisymm hsl_le hsl3
  refine ⟨?_, ?_, ?_, ?_, ?_⟩
  · have := stallLen_le ms n
    omega
  · rw [hchar]
    exact hsl
  · intro j h1 h2
    exact stallLen_imp_no_growth ms n j (by omega) h2
  · intro j hj hg
    have hcharj := scrollRun_char maxVideos ms (j + 1) (fun k hk => hpreh k (by omega))
    rw [hcharj]
    simp [stallLen, hg]
  · intro maxV2 ms2 j hgu hg hmax
    have hcharj := scrollRun_char maxV2 ms2 j (fun k hk => hgu k (le_of_lt hk))
    have hj := hgu j (le_refl j)
    rw [hcharj] at hj
    have hstep : scrollRun maxV2 ms2 (j + 1) =
        scrollStep ms2 ⟨lastGrowthValue ms2 j, stallLen ms2 j, 2 * j⟩ := by
      simp only [scrollRun, hcharj, hj, if_true]
    rw [hstep]
    unfold scrollStep
    simp only [if_pos hg]
    simp [scrollContinues, Nat.not_lt.mpr hmax]

/-- C1 counterexample: with `maxItems = 50` and a visible count constantly
measured at 100 (`≥ maxItems` from the very first scan), the loop does not
stop after the first scan — it runs 3 stall scans and returns 0 — so a
visible count `≥ maxItems` is not by itself a termination condition. -/
theorem c1_counterexample :
    50 ≤ (fun _ => 100 : ℕ → ℕ) 0 ∧
    scrollContinues 50 (scrollRun 50 (fun _ => 100) 1) = true ∧
    scrollExitsAt 50 (fun _ => 100) 3 ∧
    scroll_and_load_videos 50 (fun _ => 100) 3 = 0 := by
  refine ⟨by decide, by decide, ⟨?_, by decide⟩, by decide⟩
  decide

/-- Witness for C1 (amended) on a run that grows once and then stalls. -/
theorem c1_pagination_witness :
    3 ≤ 4 ∧
    (scrollRun 10 (fun k => if k = 0 then 0 else 1) 4).no_new_videos_count = 3 :=
  ⟨(c1_pagination 10 (fun k => if k = 0 then 0 else 1) 4
      (by intro j; by_cases h : j = 0 <;> simp [h])
      ⟨by decide, by decide⟩).1,
   (c1_pagination 10 (fun k => if k = 0 then 0 else 1) 4
      (by intro j; by_cases h : j = 0 <;> simp [h])
      ⟨by decide, by decide⟩).2.1⟩

/-- C2 (amended): the value returned by the pagination loop is the count
measured by the most recent growth scan — 0 when no scan ever observed
growth — which can be smaller than the number of items actually visible
at termination. -/
theorem c2_return_value (maxVideos : ℕ) (ms : ℕ → ℕ) (n : ℕ)
    (hpre : ∀ k, k < n → scrollContinues maxVideos (scrollRun maxVideos ms k) = true) :
    scroll_and_load_videos maxVideos ms n = lastGrowthValue ms n := by
  unfold scroll_and_load_videos
  rw [scrollRun_char maxVideos ms n hpre]

/-- C2 counterexample: when 5 items are visible from the start but no scan
ever increases the measured count, the loop exits after 3 stall scans and
returns 0, not the visible count 5. -/
theorem c2_counterexample :
    scrollExitsAt 100 (fun _ => 5) 3 ∧
    (∀ k, (fun _ => 5 : ℕ → ℕ) k = 5) ∧
    scroll_and_load_videos 100 (fun _ => 5) 3 = 0 ∧ (0 : ℕ) ≠ 5 := by
  refine ⟨⟨?_, by decide⟩, fun _ => rfl, by decide, by decide⟩
  decide

/-- Witness for C2 (amended) on a run that grows once and then stalls. -/
theorem c2_return_value_witness :
    scroll_and_load_videos 10 (fun k => if k < 2 then k else 1) 4 =
      lastGrowthValue (fun k => if k < 2 then k else 1) 4 ∧
    lastGrowthValue (fun k => if k < 2 then k else 1) 4 = 1 :=
  ⟨c2_return_value 10 (fun k => if k < 2 then k else 1) 4 (by decide), by decide⟩

theorem process_video_data_ok (raw : RawVideoData) (rec : ProcessedVideoData)
    (h : process_video_data raw = .ok rec) :
    format_number raw.views_count = .ok rec.views_count ∧
    format_number raw.likes_count = .ok rec.likes_count ∧
    format_number raw.comments_count = .ok rec.comments_count ∧
    rec.video_url = raw.video_url := by
  unfold process_video_data at h
  cases hv : format_number raw.views_count with
  | error e => simp [hv, Bind.bind, Except.bind] at h
  | ok v =>
    cases hl : format_number raw.likes_count with
    | error e => simp [hv, hl, Bind.bind, Except.bind] at h
    | ok l =>
      cases hc : format_number raw.comments_count with
      | error e => simp [hv, hl, hc, Bind.bind, Except.bind] at h
      | ok c =>
        simp only [hv, hl, hc, Bind.bind, Except.bind, Except.ok.injEq] at h
        subst h
        exact ⟨rfl, rfl, rfl, rfl⟩

theorem add_video_data_cases (data : List ProcessedVideoData) (raw : RawVideoData) :
    (add_video_data data raw).1 = data ∨
    ∃ rec, (add_video_data data raw).1 = data ++ [rec] ∧
      rec.video_url = raw.video_url := by
  unfold add_video_data
  split
  · exact Or.inl rfl
  · cases hp : process_video_data raw with
    | ok rec =>
      exact Or.inr ⟨rec, by simp, (process_video_data_ok _ _ hp).2.2.2⟩
    | error e => exact Or.inl (by simp)

theorem crawlItem_inv (it : ItemEnv) (i : ℕ) (st : CrawlState)
    (h1 : (st.csvData.map (fun r => r.video_url)).Nodup)
    (h2 : ∀ r ∈ st.csvData, r.video_url ∈ st.scraped_videos) :
    ((crawlItem it i st).1.csvData.map (fun r => r.video_url)).Nodup ∧
    ∀ r ∈ (crawlItem it i st).1.csvData,
      r.video_url ∈ (crawlItem it i st).1.scraped_videos := by
  obtain ⟨ec, rz, grid, det⟩ := it
  cases rz with
  | true => exact ⟨h1, h2⟩
  | false =>
    by_cases hb : ec ≤ i
    · simpa [crawlItem, hb] using ⟨h1, h2⟩
    · cases grid with
      | none => simpa [crawlItem, hb] using ⟨h1, h2⟩
      | some g =>
        by_cases hu0 : g.video_url = []
        · simpa [crawlItem, hb, hu0] using ⟨h1, h2⟩
        · by_cases hmem : g.video_url ∈ st.scraped_videos
          · simpa [crawlItem, hb, hu0, hmem] using ⟨h1, h2⟩
          · have hstep : crawlItem ⟨ec, false, some g, det⟩ i st =
                (⟨st.scraped_videos ++ [g.video_url],
                  (add_video_data st.csvData
                    ⟨(pySplitOn ['/'] g.video_url).getLast?.getD [],
                     g.video_url, det.description, g.thumbnail_url,
                     g.views_count, det.likes_count, det.comments_count⟩).1,
                  st.scraped_count + 1⟩, false) := by
              simp [crawlItem, hb, hu0, hmem]
            rw [hstep]
            dsimp only
            rcases add_video_data_cases st.csvData
                ⟨(pySplitOn ['/'] g.video_url).getLast?.getD [],
                 g.video_url, det.description, g.thumbnail_url,
                 g.views_count, det.likes_count, det.comments_count⟩ with
              hadd | ⟨rec, hadd, hurl⟩
            · rw [hadd]
              exact ⟨h1, fun r hr => List.mem_append_left _ (h2 r hr)⟩
            · rw [hadd]
              constructor
              · rw [List.map_append]
                rw [List.nodup_append]
                refine ⟨h1, List.nodup_singleton _, ?_⟩
                intro u hu hu2
                simp [hurl] at hu2
                subst hu2
                rcases List.mem_map.mp hu with ⟨r, hr, hru⟩
                exact hmem (hru ▸ h2 r hr)
              · intro r hr
                rcases List.mem_append.mp hr with hr | hr
                · exact List.mem_append_left _ (h2 r hr)
                · simp at hr
                  subst hr
                  rw [hurl]
                  exact List.mem_append_right _ (by simp)

theorem crawlLoop_inv (items : ℕ → ItemEnv) (r : ℕ) :
    ∀ i : ℕ, ∀ st : CrawlState,
      (st.csvData.map (fun rec => rec.video_url)).Nodup →
      (∀ rec ∈ st.csvData, rec.video_url ∈ st.scraped_videos) →
      ((crawlLoop items i r st).csvData.map (fun rec => rec.video_url)).Nodup ∧
      ∀ rec ∈ (crawlLoop items i r st).csvData,
        rec.video_url ∈ (crawlLoop items i r st).scraped_videos := by
  induction r with
  | zero => exact fun i st h1 h2 => ⟨h1, h2⟩
  | succ r ih =>
    intro i st h1 h2
    have hitem := crawlItem_inv (items i) i st h1 h2
    simp only [crawlLoop]
    split
    · exact hitem
    · exact ih (i + 1) _ hitem.1 hitem.2

/-- C4: in every `scrape_profile` run, at most one record is committed per
distinct video URL — the committed collection contains no two entries with
the same `video_url`, and its length equals the number of distinct
committed URLs. -/
theorem c4_dedup (env : ScrapeEnv) :
    ((scrape_profile env).2.1.csvData.map (fun r => r.video_url)).Nodup ∧
    (scrape_profile env).2.1.csvData.length =
      ((scrape_profile env).2.1.csvData.map (fun r => r.video_url)).dedup.length := by
  have hstate : (scrape_profile env).2.1 = (⟨[], [], 0⟩ : CrawlState) ∨
      (scrape_profile env).2.1 =
        crawlLoop env.items 0 env.maxVideos ⟨[], [], 0⟩ := by
    unfold scrape_profile scrapeBody
    by_cases h1 : env.startFails
    · exact Or.inl (by simp [h1])
    · by_cases h2 : env.navOk = false
      · exact Or.inl (by simp [h1, h2])
      · by_cases h3 : env.scrollResult = 0
        · exact Or.inl (by simp [h1, h2, h3])
        · by_cases h4 :
            (crawlLoop env.items 0 env.maxVideos ⟨[], [], 0⟩).csvData = []
          · exact Or.inr (by simp [h1, h2, h3, h4])
          · exact Or.inr (by simp [h1, h2, h3, h4])
  have hnodup : ((scrape_profile env).2.1.csvData.map (fun r => r.video_url)).Nodup := by
    rcases hstate with h | h <;> rw [h]
    · exact List.nodup_nil
    · exact (crawlLoop_inv env.items env.maxVideos 0 ⟨[], [], 0⟩
        List.nodup_nil (by simp)).1
  refine ⟨hnodup, ?_⟩
  rw [List.dedup_eq_self.mpr hnodup, List.length_map]

/-- C9: on every exit path of `scrape_profile` — the early `return False`
on a missing profile or a zero item count, the success and no-data paths,
and an exception raised by `start_browser` — `close_browser` is the last
browser-lifecycle action, invoked before the call returns its outcome. -/
theorem c9_close_browser (env : ScrapeEnv) :
    (scrape_profile env).2.2.getLast? = some .closeBrowser ∧
    ScrapeAction.closeBrowser ∈ (scrape_profile env).2.2 ∧
    (env.startFails = true →
      scrape_profile env =
        (false, ⟨[], [], 0⟩, [.startBrowser, .closeBrowser])) ∧
    (env.startFails = false → env.navOk = false →
      scrape_profile env =
        (false, ⟨[], [], 0⟩, [.startBrowser, .navigate, .closeBrowser])) ∧
    (env.startFails = false → env.navOk = true → env.scrollResult = 0 →
      scrape_profile env =
        (false, ⟨[], [], 0⟩,
         [.startBrowser, .navigate, .scrollLoad, .closeBrowser])) := by
  refine ⟨?_, ?_, ?_, ?_, ?_⟩
  · show ((scrapeBody env).2.2 ++ [ScrapeAction.closeBrowser]).getLast? = _
    exact List.getLast?_concat _
  · show ScrapeAction.closeBrowser ∈ (scrapeBody env).2.2 ++ [ScrapeAction.closeBrowser]
    exact List.mem_append_right _ (by simp)
  · intro h
    simp [scrape_profile, scrapeBody, h]
  · intro h1 h2
    simp [scrape_profile, scrapeBody, h1, h2]
  · intro h1 h2 h3
    simp [scrape_profile, scrapeBody, h1, h2, h3]

theorem pySplitGo_skip (c0 : Char) (cs : List Char) (pre t : List Char) :
    pySplitGo c0 cs (pre ++ t) pre.length = pySplitGo c0 cs t 0 := by
  induction pre with
  | nil => rfl
  | cons p pre ih => simpa [pySplitGo] using ih

theorem pySplitGo_ne_nil (c0 : Char) (cs : List Char) :
    ∀ s skip, pySplitGo c0 cs s skip ≠ [] := by
  intro s
  induction s with
  | nil => intro skip; cases skip <;> simp [pySplitGo]
  | cons c rest ih =>
    intro skip
    cases skip with
    | zero =>
      simp only [pySplitGo]
      split
      · simp
      · split <;> simp
    | succ k => simpa [pySplitGo] using ih k

theorem pyContains_iff (needle s : List Char) :
    pyContains needle s = true ↔ ∃ t, t <:+ s ∧ needle <+: t := by
  induction s with
  | nil =>
    simp only [pyContains, List.isEmpty_iff]
    constructor
    · intro h
      exact ⟨[], List.suffix_refl _, by simp [h]⟩
    · rintro ⟨t, ht, hp⟩
      have ht0 : t = [] := List.suffix_nil.mp ht
      subst ht0
      simpa using List.prefix_nil.mp hp
  | cons c rest ih =>
    simp only [pyContains, Bool.or_eq_true, ih]
    rw [ List.isPrefixOf_iff_prefix]
    constructor
    · rintro (h | ⟨t, ht, hp⟩)
      · exact ⟨c :: rest, List.suffix_refl _, h⟩
      · exact ⟨t, ht.trans (List.suffix_cons c rest), hp⟩
    · rintro ⟨t, ht, hp⟩
      rcases List.suffix_cons_iff.mp ht with rfl | ht2
      · exact Or.inl hp
      · exact Or.inr ⟨t, ht2, hp⟩

theorem pyContains_false_of_not_mem (c0 : Char) (cs s : List Char)
    (h : c0 ∉ s) : pyContains (c0 :: cs) s = false := by
  cases hcc : pyContains (c0 :: cs) s with
  | false => rfl
  | true =>
    exfalso
    rcases (pyContains_iff _ _).mp hcc with ⟨t, ht, hp⟩
    rcases hp with ⟨r, rfl⟩
    exact h (ht.mem (by simp))

theorem isPrefixOf_false_of_head_ne (c0 d : Char) (cs t : List Char)
    (h : c0 ≠ d) : (c0 :: cs).isPrefixOf (d :: t) = false := by
  simp [List.isPrefixOf, h]

theorem pySplitGo_of_not_contains (c0 : Char) (cs : List Char) (s : List Char)
    (h : pyContains (c0 :: cs) s = false) :
    pySplitGo c0 cs s 0 = [s] := by
  induction s with
  | nil => rfl
  | cons c rest ih =>
    simp only [pyContains, Bool.or_eq_false_iff] at h
    simp only [pySplitGo]
    rw [if_neg (by rw [h.1]; exact Bool.false_ne_true)]
    rw [ih h.2]

theorem pySplitGo_append (c0 : Char) (cs : List Char) (a b : List Char)
    (h : ∀ a2, a2 ≠ [] → a2 <:+ a →
      (c0 :: cs).isPrefixOf (a2 ++ (c0 :: cs) ++ b) = false) :
    pySplitGo c0 cs (a ++ (c0 :: cs) ++ b) 0 = a :: pySplitGo c0 cs b 0 := by
  induction a with
  | nil =>
    have hpref : (c0 :: cs).isPrefixOf ((c0 :: cs) ++ b) = true :=
      List.isPrefixOf_iff_prefix.mpr (List.prefix_append _ _)
    show pySplitGo c0 cs ((c0 :: cs) ++ b) 0 = [] :: pySplitGo c0 cs b 0
    rw [List.cons_append] at hpref ⊢
    simp only [pySplitGo]
    rw [if_pos hpref]
    rw [pySplitGo_skip c0 cs cs b]
  | cons x a ih =>
    have hx := h (x :: a) (by simp) (List.suffix_refl _)
    rw [List.cons_append, List.cons_append] at hx ⊢
    simp only [pySplitGo]
    rw [if_neg (by rw [hx]; exact Bool.false_ne_true)]
    have ha : ∀ a2, a2 ≠ [] → a2 <:+ a →
        (c0 :: cs).isPrefixOf (a2 ++ (c0 :: cs) ++ b) = false :=
      fun a2 h1 h2 => h a2 h1 (h2.trans (List.suffix_cons x a))
    rw [ih ha]

theorem pySplitGo_getD_append (c0 : Char) (cs : List Char) (u w : List Char)
    (h : ∀ a2, a2 ≠ [] → a2 <:+ u →
      (c0 :: cs).isPrefixOf (a2 ++ w) = false) :
    (pySplitGo c0 cs (u ++ w) 0).getD 0 [] =
      u ++ (pySplitGo c0 cs w 0).getD 0 [] := by
  induction u with
  | nil => simp
  | cons x u ih =>
    have hx := h (x :: u) (by simp) (List.suffix_refl _)
    rw [List.cons_append] at hx ⊢
    simp only [pySplitGo]
    rw [if_neg (by rw [hx]; exact Bool.false_ne_true)]
    have ihh := ih (fun a2 h1 h2 => h a2 h1 (h2.trans (List.suffix_cons x u)))
    cases hsp : pySplitGo c0 cs (u ++ w) 0 with
    | nil => exact absurd hsp (pySplitGo_ne_nil c0 cs (u ++ w) 0)
    | cons y ys =>
      rw [hsp] at ihh
      simp only [List.getD_cons_zero] at ihh ⊢
      rw [ihh]
      simp

theorem no_early_occurrence (c0 : Char) (cs : List Char) (pre : List Char)
    (hpre : pyContains (c0 :: cs) ((pre ++ (c0 :: cs)).dropLast) = false) :
    ∀ b a2, a2 ≠ [] → a2 <:+ pre →
      (c0 :: cs).isPrefixOf (a2 ++ (c0 :: cs) ++ b) = false := by
  intro b a2 h1 h2
  by_contra hcne
  rw [Bool.not_eq_false] at hcne
  rw [ List.isPrefixOf_iff_prefix] at hcne
  have hlen : (c0 :: cs).length ≤ (a2 ++ (c0 :: cs)).length := by
    simp [List.length_append]
  have htake : c0 :: cs = (a2 ++ (c0 :: cs) ++ b).take (c0 :: cs).length :=
    List.prefix_iff_eq_take.mp hcne
  have htake2 : (a2 ++ (c0 :: cs) ++ b).take (c0 :: cs).length =
      (a2 ++ (c0 :: cs)).take (c0 :: cs).length := by
    rw [List.take_append_eq_append_take]
    have hz : (c0 :: cs).length - (a2 ++ (c0 :: cs)).length = 0 := by omega
    rw [hz]
    simp
  have hm_pref : c0 :: cs <+: a2 ++ (c0 :: cs) := by
    have hbase := List.take_prefix (c0 :: cs).length (a2 ++ (c0 :: cs))
    rw [← htake2, ← htake] at hbase
    exact hbase
  have ha2len : 1 ≤ a2.length := List.length_pos.mpr h1
  have hdl : c0 :: cs <+: (a2 ++ (c0 :: cs)).dropLast := by
    have e1 : c0 :: cs = (a2 ++ (c0 :: cs)).take (c0 :: cs).length :=
      List.prefix_iff_eq_take.mp hm_pref
    have e2 : ((a2 ++ (c0 :: cs)).take ((a2 ++ (c0 :: cs)).length - 1)).take
        (c0 :: cs).length = (a2 ++ (c0 :: cs)).take (c0 :: cs).length := by
      rw [List.take_take]
      congr 1
      simp only [List.length_append, List.length_cons]
      omega
    have hbase := List.take_prefix (c0 :: cs).length
      ((a2 ++ (c0 :: cs)).take ((a2 ++ (c0 :: cs)).length - 1))
    rw [e2, ← e1] at hbase
    rw [List.dropLast_eq_take]
    exact hbase
  have hsfx : (a2 ++ (c0 :: cs)).dropLast <:+ (pre ++ (c0 :: cs)).dropLast := by
    obtain ⟨u, rfl⟩ := h2
    rw [List.dropLast_append_of_ne_nil a2 (by simp),
        List.dropLast_append_of_ne_nil (u ++ a2) (by simp)]
    exact ⟨u, by rw [List.append_assoc]⟩
  have hcontr : pyContains (c0 :: cs) ((pre ++ (c0 :: cs)).dropLast) = true :=
    (pyContains_iff _ _).mpr ⟨(a2 ++ (c0 :: cs)).dropLast, hsfx, hdl⟩
  rw [hpre] at hcontr
  exact Bool.false_ne_true hcontr

/-- C7: for a URL of the form `pre ++ "/video/" ++ digits`, optionally
followed by `"?" ++ query`, in which the shown occurrence of the marker is
the first one and the segment is a digit run, both `utils.extract_video_id`
and `CSVExporter._extract_video_id` return exactly the digit segment, with
or without the query string. -/
theorem c7_video_id (pre digits q : List Char)
    (hpre : pyContains videoMarker ((pre ++ videoMarker).dropLast) = false)
    (hne : digits ≠ [])
    (hdig : ∀ c ∈ digits, c.isDigit = true) :
    extract_video_id (pre ++ videoMarker ++ digits) = some digits ∧
    extract_video_id (pre ++ videoMarker ++ (digits ++ '?' :: q)) = some digits ∧
    extract_video_id_csv (pre ++ videoMarker ++ digits) = digits ∧
    extract_video_id_csv (pre ++ videoMarker ++ (digits ++ '?' :: q)) = digits := by
  have hm : videoMarker = '/' :: "video/".toList := rfl
  have hearly := no_early_occurrence '/' "video/".toList pre (by rw [← hm]; exact hpre)
  have hslash : '/' ∉ digits := fun hmem => absurd (hdig '/' hmem) (by decide)
  have hquery : '?' ∉ digits := fun hmem => absurd (hdig '?' hmem) (by decide)
  have hhead : ∀ w : List Char, ∀ a2, a2 ≠ [] → a2 <:+ digits →
      ('/' :: "video/".toList).isPrefixOf (a2 ++ w) = false := by
    intro w a2 h1 h2
    cases a2 with
    | nil => exact absurd rfl h1
    | cons d t =>
      have hd : d.isDigit = true := hdig d (h2.mem (by simp))
      rw [List.cons_append]
      exact isPrefixOf_false_of_head_ne _ _ _ _
        (fun heq => absurd hd (by rw [← heq]; decide))
  have hheadq : ∀ w : List Char, ∀ a2, a2 ≠ [] → a2 <:+ digits →
      ('?' :: ([] : List Char)).isPrefixOf (a2 ++ w) = false := by
    intro w a2 h1 h2
    cases a2 with
    | nil => exact absurd rfl h1
    | cons d t =>
      have hd : d.isDigit = true := hdig d (h2.mem (by simp))
      rw [List.cons_append]
      exact isPrefixOf_false_of_head_ne _ _ _ _
        (fun heq => absurd hd (by rw [← heq]; decide))
  have hsplit : ∀ b : List Char,
      pySplitOn videoMarker (pre ++ videoMarker ++ b) =
        pre :: pySplitGo '/' "video/".toList b 0 := by
    intro b
    rw [hm]
    exact pySplitGo_append '/' "video/".toList pre b (hearly b)
  have hurlne : ∀ b : List Char, pre ++ videoMarker ++ b ≠ [] := by
    intro b h
    simp [hm] at h
  have hurlcont : ∀ b : List Char,
      pyContains videoMarker (pre ++ videoMarker ++ b) = true := by
    intro b
    refine (pyContains_iff _ _).mpr
      ⟨videoMarker ++ b, ⟨pre, ?_⟩, List.prefix_append _ _⟩
    rw [List.append_assoc]
  have hin1 : (pySplitOn ['?']
      ((pySplitOn videoMarker (pre ++ videoMarker ++ digits)).getD 1 [])).getD 0 []
      = digits := by
    rw [hsplit digits]
    simp only [List.getD_cons_succ, List.getD_cons_zero]
    rw [pySplitGo_of_not_contains '/' _ digits
      (pyContains_false_of_not_mem _ _ _ hslash)]
    simp only [List.getD_cons_zero]
    show (pySplitGo '?' [] digits 0).getD 0 [] = digits
    rw [pySplitGo_of_not_contains '?' [] digits
      (pyContains_false_of_not_mem _ _ _ hquery)]
    rfl
  have hin2 : (pySplitOn ['?']
      ((pySplitOn videoMarker
        (pre ++ videoMarker ++ (digits ++ '?' :: q))).getD 1 [])).getD 0 []
      = digits := by
    rw [hsplit (digits ++ '?' :: q)]
    simp only [List.getD_cons_succ]
    rw [pySplitGo_getD_append '/' _ digits ('?' :: q) (hhead ('?' :: q))]
    have hq : ('/' :: "video/".toList).isPrefixOf ('?' :: q) = false :=
      isPrefixOf_false_of_head_ne _ _ _ _ (by decide)
    cases hqs : pySplitGo '/' "video/".toList q 0 with
    | nil => exact absurd hqs (pySplitGo_ne_nil _ _ _ _)
    | cons y ys =>
      have hstep : pySplitGo '/' "video/".toList ('?' :: q) 0 = ('?' :: y) :: ys := by
        simp only [pySplitGo]
        rw [if_neg (by rw [hq]; exact Bool.false_ne_true), hqs]
      rw [hstep]
      simp only [List.getD_cons_zero]
      show (pySplitGo '?' [] (digits ++ '?' :: y) 0).getD 0 [] = digits
      have hshape : digits ++ '?' :: y = digits ++ ('?' :: ([] : List Char)) ++ y := by
        simp
      rw [hshape]
      rw [pySplitGo_append '?' [] digits y
        (fun a2 h1 h2 => by
          rw [List.append_assoc]
          exact hheadq (('?' :: ([] : List Char)) ++ y) a2 h1 h2)]
      simp only [List.getD_cons_zero]
  refine ⟨?_, ?_, ?_, ?_⟩
  · unfold extract_video_id
    rw [if_neg (hurlne digits), if_pos (hurlcont digits), hin1]
  · unfold extract_video_id
    rw [if_neg (hurlne (digits ++ '?' :: q)),
        if_pos (hurlcont (digits ++ '?' :: q)), hin2]
  · unfold extract_video_id_csv
    rw [if_neg (hurlne digits), if_pos (hurlcont digits), hin1]
  · unfold extract_video_id_csv
    rw [if_neg (hurlne (digits ++ '?' :: q)),
        if_pos (hurlcont (digits ++ '?' :: q)), hin2]

/-- Witness for C7 on a concrete TikTok video URL. -/
theorem c7_video_id_witness :
    extract_video_id ("https://www.tiktok.com/@user".toList ++ videoMarker ++
      "7234567890123".toList) = some "7234567890123".toList ∧
    extract_video_id ("https://www.tiktok.com/@user".toList ++ videoMarker ++
      ("7234567890123".toList ++ '?' :: "lang=en".toList)) =
        some "7234567890123".toList ∧
    extract_video_id_csv ("https://www.tiktok.com/@user".toList ++ videoMarker ++
      "7234567890123".toList) = "7234567890123".toList ∧
    extract_video_id_csv ("https://www.tiktok.com/@user".toList ++ videoMarker ++
      ("7234567890123".toList ++ '?' :: "lang=en".toList)) =
        "7234567890123".toList :=
  c7_video_id "https://www.tiktok.com/@user".toList "7234567890123".toList
    "lang=en".toList (by decide) (by decide) (by decide)

theorem pyReplace1_empty_eq_filter (old : Char) (s : List Char) :
    pyReplace1 old [] s = s.filter (fun c => c ≠ old) := by
  induction s with
  | nil => rfl
  | cons c rest ih =>
    by_cases h : c = old <;> simp [pyReplace1, List.filter, h, ih]

/-- C10: `get_tiktok_profile_url(username)` is the fixed prefix followed by
the username stripped of every `"@"`, and a handle with or without a
leading `"@"` yields the same URL. -/
theorem c10_profile_url (username : List Char) (u : List Char)
    (hu : '@' ∉ u) :
    get_tiktok_profile_url username =
      "https://www.tiktok.com/@".toList ++
        username.filter (fun c => c ≠ '@') ∧
    get_tiktok_profile_url ('@' :: u) = get_tiktok_profile_url u := by
  constructor
  · simp [get_tiktok_profile_url, pyReplace1_empty_eq_filter]
  · simp [get_tiktok_profile_url, pyReplace1]

theorem pyUpperChar_eq_dash (c : Char) (h : pyUpperChar c = '-') : c = '-' := by
  unfold pyUpperChar at h
  split at h <;> first
    | exact h
    | (exfalso; exact absurd h (by decide))

theorem mem_of_mem_pyUpperStr_dash (s : List Char)
    (h : '-' ∈ pyUpperStr s) : '-' ∈ s := by
  rcases List.mem_map.mp h with ⟨c, hc, heq⟩
  rw [← pyUpperChar_eq_dash c heq]
  exact hc

theorem mem_of_mem_stripWS (s : List Char) (c : Char)
    (h : c ∈ stripWS s) : c ∈ s := by
  unfold stripWS at h
  rw [List.mem_reverse] at h
  have h2 := (List.dropWhile_suffix isPyWS).mem h
  rw [List.mem_reverse] at h2
  exact (List.dropWhile_suffix isPyWS).mem h2

theorem parseSign_false (t : List Char) (h : '-' ∉ t) :
    (parseSign t).1 = false := by
  unfold parseSign
  split
  · rfl
  · simp at h
  · rfl

theorem roundF64_nonneg (num : ℤ) (den : ℕ) (h : 0 ≤ num) :
    (roundF64 num den).NonNegative := by
  unfold roundF64
  have hnneg : ¬ num < 0 := not_lt.mpr h
  split
  · exact le_refl 0
  · simp only [if_neg hnneg]
    split <;> split <;> first
      | trivial
      | exact Int.ofNat_nonneg _

theorem pyMulNat_nonneg (x : PyFloat) (mult : ℕ) (h : x.NonNegative) :
    (pyMulNat x mult).NonNegative := by
  cases x with
  | finite m k =>
    have hm : 0 ≤ m := h
    simp only [pyMulNat]
    split
    · exact roundF64_nonneg _ _
        (mul_nonneg (mul_nonneg hm (Int.ofNat_nonneg _))
          (pow_nonneg (by norm_num) _))
    · exact roundF64_nonneg _ _ (mul_nonneg hm (Int.ofNat_nonneg _))
  | inf => trivial
  | neginf => exact h.elim
  | nan => trivial

theorem pyIntOfFloat_nonneg (x : PyFloat) (n : ℤ) (hx : x.NonNegative)
    (h : pyIntOfFloat x = .ok n) : 0 ≤ n := by
  cases x with
  | finite m k =>
    have hm : 0 ≤ m := hx
    simp only [pyIntOfFloat, Except.ok.injEq] at h
    subst h
    split
    · exact mul_nonneg hm (pow_nonneg (by norm_num) _)
    · simp only [if_neg (not_lt.mpr hm)]
      exact Int.ofNat_nonneg _
  | inf => simp [pyIntOfFloat] at h
  | neginf => exact hx.elim
  | nan => simp [pyIntOfFloat] at h

theorem pyFloatOfString_nonneg (s : List Char) (x : PyFloat)
    (hs : '-' ∉ s) (h : pyFloatOfString s = .ok x) : x.NonNegative := by
  have hns : '-' ∉ pyUpperStr (stripWS s) := fun hm =>
    hs (mem_of_mem_stripWS _ _ (mem_of_mem_pyUpperStr_dash _ hm))
  have hsgn : (parseSign (pyUpperStr (stripWS s))).1 = false :=
    parseSign_false _ hns
  unfold pyFloatOfString at h
  simp only [hsgn, Bool.false_eq_true, ite_false] at h
  split at h
  · rw [← Except.ok.inj h]
    trivial
  · split at h
    · rw [← Except.ok.inj h]
      trivial
    · split at h
      · rw [← Except.ok.inj h]
        split
        · exact roundF64_nonneg _ _ (by positivity)
        · exact roundF64_nonneg _ _ (Int.ofNat_nonneg _)
      · exact absurd h (by simp)

theorem pyIntOfString_nonneg (s : List Char) (n : ℤ)
    (hs : '-' ∉ s) (h : pyIntOfString s = .ok n) : 0 ≤ n := by
  have hns : '-' ∉ stripWS s := fun hm => hs (mem_of_mem_stripWS _ _ hm)
  have hsgn : (parseSign (stripWS s)).1 = false := parseSign_false _ hns
  unfold pyIntOfString at h
  simp only [hsgn, Bool.false_eq_true, ite_false] at h
  split at h
  · split at h
    · split at h
      · rw [← Except.ok.inj h]
        exact Int.ofNat_nonneg _
      · exact absurd h (by simp)
    · exact absurd h (by simp)
  · exact absurd h (by simp)

theorem fnBranch_nonneg (t : List Char) (suf : Char) (mult : ℕ) (n : ℤ)
    (ht : '-' ∉ t) (h : fnBranch t suf mult = .ok n) : 0 ≤ n := by
  have ht2 : '-' ∉ pyReplace1 suf [] t := by
    rw [pyReplace1_empty_eq_filter]
    intro hm
    exact ht (List.mem_filter.mp hm).1
  unfold fnBranch at h
  cases hf : pyFloatOfString (pyReplace1 suf [] t) with
  | error e => rw [hf] at h; simp [Bind.bind, Except.bind] at h
  | ok x =>
    rw [hf] at h
    simp only [Bind.bind, Except.bind] at h
    exact pyIntOfFloat_nonneg _ _
      (pyMulNat_nonneg x mult (pyFloatOfString_nonneg _ _ ht2 hf)) h

theorem catchVT_ok (r : Except PyErr ℤ) (n : ℤ) (h : catchVT r = .ok n) :
    r = .ok n ∨ n = 0 := by
  cases r with
  | ok a => left; simpa [catchVT] using h
  | error pe => cases pe <;> simp_all [catchVT]

theorem format_number_nonneg (text : List Char) (n : ℤ)
    (ht : '-' ∉ text) (h : format_number text = .ok n) : 0 ≤ n := by
  unfold format_number at h
  split at h
  · simp only [Except.ok.injEq] at h
    omega
  · have hct : '-' ∉ pyReplace1 ' ' []
        (pyReplace1 ',' [] (pyUpperStr text)) := by
      rw [pyReplace1_empty_eq_filter]
      intro hm
      have hm2 := (List.mem_filter.mp hm).1
      rw [pyReplace1_empty_eq_filter] at hm2
      exact ht (mem_of_mem_pyUpperStr_dash _ (List.mem_filter.mp hm2).1)
    rcases catchVT_ok _ _ h with hr | rfl
    · split at hr
      · exact fnBranch_nonneg _ _ _ _ hct hr
      · split at hr
        · exact fnBranch_nonneg _ _ _ _ hct hr
        · split at hr
          · exact fnBranch_nonneg _ _ _ _ hct hr
          · exact pyIntOfString_nonneg _ _ hct hr
    · exact le_refl 0

/-- C8 (amended): every record that `_process_video_data` commits carries
integer count fields equal to `format_number` of the raw extracted text
(never the raw abbreviated text itself), and these integers are
non-negative whenever the raw text contains no `'-'` character; a
minus-signed count string, however, produces a negative committed value
(see the counterexample). -/
theorem c8_nonneg (raw : RawVideoData) (rec : ProcessedVideoData)
    (h : process_video_data raw = .ok rec) :
    format_number raw.views_count = .ok rec.views_count ∧
    format_number raw.likes_count = .ok rec.likes_count ∧
    format_number raw.comments_count = .ok rec.comments_count ∧
    ('-' ∉ raw.views_count → 0 ≤ rec.views_count) ∧
    ('-' ∉ raw.likes_count → 0 ≤ rec.likes_count) ∧
    ('-' ∉ raw.comments_count → 0 ≤ rec.comments_count) := by
  obtain ⟨hv, hl, hc, _⟩ := process_video_data_ok raw rec h
  exact ⟨hv, hl, hc,
    fun hm => format_number_nonneg _ _ hm hv,
    fun hm => format_number_nonneg _ _ hm hl,
    fun hm => format_number_nonneg _ _ hm hc⟩

/-- C8 counterexample: a raw views string `"-5"` is committed as the
negative integer -5, so the universal non-negativity claim over arbitrary
count strings fails. -/
theorem c8_counterexample :
    (process_video_data
        ⟨"1".toList, "https://x/video/1".toList, [], [],
         "-5".toList, "0".toList, "0".toList⟩).map
      (fun rec => rec.views_count) = .ok (-5) ∧
    ¬ (0 : ℤ) ≤ (-5 : ℤ) :=
  ⟨rfl, by decide⟩

/-- Witness for C8 (amended) on a concrete committed record. -/
theorem c8_nonneg_witness :
    format_number "1.2K".toList = .ok (1200 : ℤ) ∧
    (0 : ℤ) ≤ 1200 ∧ (0 : ℤ) ≤ 3 ∧ (0 : ℤ) ≤ 4 :=
  ⟨(c8_nonneg
      ⟨"1".toList, "https://x/video/1".toList, [], [],
       "1.2K".toList, "3".toList, "4".toList⟩
      ⟨"1".toList, "https://x/video/1".toList, [], [], 1200, 3, 4⟩ rfl).1,
   (c8_nonneg
      ⟨"1".toList, "https://x/video/1".toList, [], [],
       "1.2K".toList, "3".toList, "4".toList⟩
      ⟨"1".toList, "https://x/video/1".toList, [], [], 1200, 3, 4⟩ rfl).2.2.2.1
     (by decide),
   (c8_nonneg
      ⟨"1".toList, "https://x/video/1".toList, [], [],
       "1.2K".toList, "3".toList, "4".toList⟩
      ⟨"1".toList, "https://x/video/1".toList, [], [], 1200, 3, 4⟩ rfl).2.2.2.2.1
     (by decide),
   (c8_nonneg
      ⟨"1".toList, "https://x/video/1".toList, [], [],
       "1.2K".toList, "3".toList, "4".toList⟩
      ⟨"1".toList, "https://x/video/1".toList, [], [], 1200, 3, 4⟩ rfl).2.2.2.2.2
     (by decide)⟩

/-- Witness for C10 at a concrete handle. -/
theorem c10_profile_url_witness :
    get_tiktok_profile_url "hugodecrypte".toList =
      "https://www.tiktok.com/@".toList ++
        "hugodecrypte".toList.filter (fun c => c ≠ '@') ∧
    get_tiktok_profile_url ('@' :: "hugodecrypte".toList) =
      get_tiktok_profile_url "hugodecrypte".toList :=
  c10_profile_url "hugodecrypte".toList "hugodecrypte".toList (by decide)

end Scraper
